import Mathlib

/-!
Verification of the AS-RUN log ingestion engine: fixed-width log decoding,
program matching, broadcast segment building, overlap detection, billboard
association, and the idempotent persistence flow, shallowly embedded from the
TypeScript sources (log parser, Lambda handler) into Lean.

Conventions of the embedding:
* JavaScript strings are Lean `String`s; the handful of JS string methods the
  code uses (`trim`, `substring`, `split`, `toUpperCase`, `includes`,
  `startsWith`, `parseInt`, indexing) are modelled by `js*` helpers below.
* A UTC instant (the code stores ISO strings produced by luxon's
  `toUTC().toISO()` and turns them back into `Date`s) is modelled by its epoch
  milliseconds as an `Int`; `null` timestamps are `none`.
* The `string | boolean` typed `isBillboard` field is modelled by `StrOrBool`,
  with JS truthiness made explicit.
-/

namespace AsRun

/-! ### JavaScript string primitives -/

/-- JS `String.prototype.length` (code units; all inputs here are ASCII). -/
def strLen (s : String) : Nat := s.toList.length

def jsTrimList (cs : List Char) : List Char :=
  ((cs.dropWhile Char.isWhitespace).reverse.dropWhile Char.isWhitespace).reverse

/-- JS `String.prototype.trim`. -/
def jsTrim (s : String) : String := String.mk (jsTrimList s.toList)

/-- JS `String.prototype.substring(a, b)` for `a ≤ b` (clamps to the length). -/
def jsSubstring (s : String) (a b : Nat) : String :=
  String.mk ((s.toList.drop a).take (b - a))

/-- JS `s[i]` wrapped into a 1-char string (`""` when out of range). -/
def jsCharAt (s : String) (i : Nat) : String :=
  match s.toList.drop i with
  | [] => ""
  | c :: _ => String.mk [c]

def jsSplitAux (sep : Char) : List Char → List Char → List (List Char)
  | [], acc => [acc.reverse]
  | c :: cs, acc =>
    if c = sep then acc.reverse :: jsSplitAux sep cs []
    else jsSplitAux sep cs (c :: acc)

/-- JS `String.prototype.split` with a single-character separator
(keeps empty pieces, `"".split(sep) = [""]`). -/
def jsSplit (s : String) (sep : Char) : List String :=
  (jsSplitAux sep s.toList []).map String.mk

/-- JS `String.prototype.toUpperCase` (ASCII). -/
def jsToUpper (s : String) : String := String.mk (s.toList.map Char.toUpper)

def jsIncludesList (needle : List Char) : List Char → Bool
  | [] => needle.isEmpty
  | c :: t => needle.isPrefixOf (c :: t) || jsIncludesList needle t

/-- JS `s.includes(sub)`. -/
def jsIncludes (s sub : String) : Bool := jsIncludesList sub.toList s.toList

/-- JS `s.startsWith(p)`. -/
def jsStartsWith (s p : String) : Bool := p.toList.isPrefixOf s.toList

def digitsToNat : List Char → Nat → Nat
  | [], acc => acc
  | c :: cs, acc => digitsToNat cs (acc * 10 + (c.toNat - 48))

/-- JS `parseInt(s)` (radix 10): optional whitespace, optional sign, then the
longest run of leading digits; `none` models `NaN`. -/
def jsParseInt (s : String) : Option Int :=
  let cs := s.toList.dropWhile Char.isWhitespace
  let sr : Int × List Char :=
    match cs with
    | '-' :: t => (-1, t)
    | '+' :: t => (1, t)
    | _ => (1, cs)
  let ds := sr.2.takeWhile Char.isDigit
  if ds.isEmpty then none else some (sr.1 * (digitsToNat ds 0 : Int))

/-- JS truthiness of a nullable string (`null` and `""` are falsy). -/
def truthyOptStr : Option String → Bool
  | none => false
  | some s => s != ""

/-! ### Calendar and timezone arithmetic

`convertToUTC` delegates to luxon (`DateTime.fromObject` in an IANA zone, then
`toUTC().toISO()`).  The zone database behaviour for the five Australian zones
the code can name is modelled here: Brisbane and Perth are fixed-offset, the
south-eastern zones observe daylight saving from the first Sunday of October
(02:00 standard) to the first Sunday of April (03:00 daylight). -/

def isLeap (y : Int) : Bool := (y % 4 == 0 && y % 100 != 0) || y % 400 == 0

def daysInMonth (y m : Int) : Int :=
  if m = 2 then (if isLeap y then 29 else 28)
  else if m = 4 ∨ m = 6 ∨ m = 9 ∨ m = 11 then 30
  else 31

/-- Days from 1970-01-01 to the given proleptic-Gregorian civil date
(Hinnant's `days_from_civil`; the divisions only ever truncate nonnegative
quantities). -/
def daysFromCivil (y m d : Int) : Int :=
  let y2 := if m ≤ 2 then y - 1 else y
  let era := (if 0 ≤ y2 then y2 else y2 - 399) / 400
  let yoe := y2 - era * 400
  let mp := m + (if 2 < m then -3 else 9)
  let doy := (153 * mp + 2) / 5 + d - 1
  let doe := yoe * 365 + yoe / 4 - yoe / 100 + doy
  era * 146097 + doe - 719468

/-- Epoch milliseconds of a UTC civil datetime. -/
def dateUTCMillis (y m d h mi s : Int) : Int :=
  daysFromCivil y m d * 86400000 + h * 3600000 + mi * 60000 + s * 1000

/-- Day of week, 0 = Sunday (1970-01-01 was a Thursday). -/
def dayOfWeek (y m d : Int) : Int := (daysFromCivil y m d + 4) % 7

/-- Day-of-month of the first Sunday of the given month. -/
def firstSundayOfMonth (y m : Int) : Int :=
  1 + (7 - dayOfWeek y m 1) % 7

/-- Whether Australian daylight saving is active at the given local wall-clock
time (first Sunday of October 02:00 to first Sunday of April 03:00). -/
def ausDstActive (y m d h : Int) : Bool :=
  if 11 ≤ m ∨ m ≤ 3 then true
  else if m = 10 then
    let fs := firstSundayOfMonth y 10
    decide (fs < d) || (decide (d = fs) && decide (2 ≤ h))
  else if m = 4 then
    let fs := firstSundayOfMonth y 4
    decide (d < fs) || (decide (d = fs) && decide (h < 3))
  else false

/-- Offset from UTC, in minutes, of an IANA zone at a local wall-clock time.
Only the five zones named by `getTimezoneForRegion` are distinguished. -/
def zoneOffsetMinutes (zone : String) (y m d h : Int) : Int :=
  if zone = "Australia/Brisbane" then 600
  else if zone = "Australia/Perth" then 480
  else if zone = "Australia/Adelaide" then (if ausDstActive y m d h then 630 else 570)
  else (if ausDstActive y m d h then 660 else 600)

/-- `getTimezoneForRegion` from the log parser: map a region code to an IANA
zone identifier, defaulting to `Australia/Sydney` for unknown codes. -/
def getTimezoneForRegion (region : String) : String :=
  if region = "SYD" then "Australia/Sydney"
  else if region = "MEL" then "Australia/Melbourne"
  else if region = "BNE" then "Australia/Brisbane"
  else if region = "PER" then "Australia/Perth"
  else if region = "ADL" then "Australia/Adelaide"
  else "Australia/Sydney"

/-- Validity of the unit object handed to luxon's `DateTime.fromObject`:
every component must be an in-range number (a `NaN` from `parseInt` makes the
DateTime invalid, and `toISO()` then yields `null`). -/
def luxonValid (y m d h mi s : Int) : Bool :=
  decide (1 ≤ m) && decide (m ≤ 12) && decide (1 ≤ d) && decide (d ≤ daysInMonth y m) &&
  decide (0 ≤ h) && decide (h ≤ 23) && decide (0 ≤ mi) && decide (mi ≤ 59) &&
  decide (0 ≤ s) && decide (s ≤ 59)

/-- `convertToUTC` from the log parser: interpret the six extracted component
strings as a local wall-clock time in the region's zone and convert to a UTC
instant; `none` models luxon's invalid DateTime (whose ISO string is `null`). -/
def convertToUTC (yyyy mm dd hh mn ss : String) (region : String) : Option Int :=
  match jsParseInt yyyy, jsParseInt mm, jsParseInt dd,
        jsParseInt hh, jsParseInt mn, jsParseInt ss with
  | some y, some m, some d, some h, some mi, some s =>
    if luxonValid y m d h mi s then
      let timezone := getTimezoneForRegion region
      some (dateUTCMillis y m d h mi s - zoneOffsetMinutes timezone y m d h * 60000)
    else none
  | _, _, _, _, _, _ => none

/-! ### LogEntry and the fixed-width decoder -/

/-- The `string | boolean` type of the `isBillboard` field. -/
inductive StrOrBool where
  | str (s : String)
  | bool (b : Bool)
deriving DecidableEq

/-- JS truthiness of a `string | boolean` value. -/
def StrOrBool.truthy : StrOrBool → Bool
  | .str s => s != ""
  | .bool b => b

structure LogEntry where
  lineNumber : Nat
  marketChannel : String
  dateTime : Option Int
  localDateTime : Option String
  time : Option String
  materialKey : String
  materialType : String
  databaseTitle : String
  isBillboard : StrOrBool
  billboardType : Option String
  rawLine : String
deriving DecidableEq

def dfltEntry : LogEntry :=
  { lineNumber := 0, marketChannel := "", dateTime := none, localDateTime := none,
    time := none, materialKey := "", materialType := "", databaseTitle := "",
    isBillboard := .bool false, billboardType := none, rawLine := "" }

instance : Inhabited LogEntry := ⟨dfltEntry⟩

structure ParsedLogData where
  billboards : List LogEntry
  programs : List LogEntry
  allEntries : List LogEntry
deriving DecidableEq

def emptyParsed : ParsedLogData := ⟨[], [], []⟩

/-- Timestamp-field parsing inside `parseLogs`: the structural checks
(`length >= 17`, a space-separated date and time part, 8 date characters,
3 colon-separated time components), the `localDateTime`/`time` strings built
from the extracted pieces, and the UTC conversion.  Returns
`(dateTime, localDateTime, time)`. -/
def parseTimestampRaw (dateTimeRaw : String) (region : String) :
    Option Int × Option String × Option String :=
  if dateTimeRaw ≠ "" ∧ 17 ≤ strLen dateTimeRaw then
    let parts := jsSplit dateTimeRaw ' '
    if 2 ≤ parts.length then
      let datePart := parts.getD 0 ""
      let timePart := parts.getD 1 ""
      if 8 ≤ strLen datePart then
        let yyyy := jsSubstring datePart 0 4
        let mm := jsSubstring datePart 4 6
        let dd := jsSubstring datePart 6 8
        let timeComponents := jsSplit timePart ':'
        if 3 ≤ timeComponents.length then
          let hh := timeComponents.getD 0 ""
          let mn := timeComponents.getD 1 ""
          let ss := timeComponents.getD 2 ""
          let localDateTime := yyyy ++ "-" ++ mm ++ "-" ++ dd ++ "T" ++ hh ++ ":" ++ mn ++ ":" ++ ss
          let timeStr := hh ++ ":" ++ mn ++ ":" ++ ss
          (convertToUTC yyyy mm dd hh mn ss region, some localDateTime, some timeStr)
        else (none, none, none)
      else (none, none, none)
    else (none, none, none)
  else (none, none, none)

/-- The `isBillboard` expression
`materialType === "I" && databaseTitle && (OB/MB/CB prefix)`, with JS
evaluation order: a non-`"I"` type short-circuits to the boolean `false`, an
empty title yields the (falsy) empty string itself. -/
def mkIsBillboard (materialType databaseTitle : String) : StrOrBool :=
  if materialType = "I" then
    if databaseTitle = "" then .str ""
    else .bool (jsStartsWith databaseTitle "OB" || jsStartsWith databaseTitle "MB" ||
                jsStartsWith databaseTitle "CB")
  else .bool false

def mkBillboardType (isB : StrOrBool) (databaseTitle : String) : Option String :=
  if isB.truthy then
    if jsStartsWith databaseTitle "OB" then some "Open Billboard"
    else if jsStartsWith databaseTitle "MB" then some "Middle Billboard"
    else if jsStartsWith databaseTitle "CB" then some "Close Billboard"
    else none
  else none

/-- The entry built from one kept line (`lineNum` is the 0-based index). -/
def mkEntry (lineNum : Nat) (line : String) (region : String) : LogEntry :=
  let marketChannel := jsTrim (jsSubstring line 0 6)
  let dateTimeRaw := jsTrim (jsSubstring line 55 75)
  let materialKey := jsTrim (jsSubstring line 119 151)
  let materialType := if 188 < strLen line then jsCharAt line 188 else ""
  let databaseTitle := if 295 < strLen line then jsTrim (jsSubstring line 295 359) else ""
  let t := parseTimestampRaw dateTimeRaw region
  let isBillboard := mkIsBillboard materialType databaseTitle
  { lineNumber := lineNum + 1
    marketChannel := marketChannel
    dateTime := t.1
    localDateTime := t.2.1
    time := t.2.2
    materialKey := materialKey
    materialType := materialType
    databaseTitle := databaseTitle
    isBillboard := isBillboard
    billboardType := mkBillboardType isBillboard databaseTitle
    rawLine := jsTrim line }

/-- One iteration of the `parseLogs` line loop: skip blank lines and lines
shorter than 360 characters, otherwise decode. -/
def decodeLine (lineNum : Nat) (line : String) (region : String) : Option LogEntry :=
  if jsTrim line = "" then none
  else if strLen line < 360 then none
  else some (mkEntry lineNum line region)

/-- Classification of a decoded entry into the three output lists:
`billboards` if `isBillboard` is truthy, else `programs` if the material type
is `"M"` or `"S"`; `allEntries` always. -/
def classifyEntry (r : ParsedLogData) (e : LogEntry) : ParsedLogData :=
  { allEntries := r.allEntries ++ [e]
    billboards := if e.isBillboard.truthy then r.billboards ++ [e] else r.billboards
    programs :=
      if !e.isBillboard.truthy && (e.materialType == "M" || e.materialType == "S") then
        r.programs ++ [e]
      else r.programs }

def parseLogsGo (region : String) : Nat → List String → ParsedLogData → ParsedLogData
  | _, [], r => r
  | i, l :: ls, r =>
    match decodeLine i l region with
    | none => parseLogsGo region (i + 1) ls r
    | some e => parseLogsGo region (i + 1) ls (classifyEntry r e)

/-- `parseLogs` from the log parser: split into lines and fold the line loop. -/
def parseLogs (logFileContent : String) (region : String) : ParsedLogData :=
  parseLogsGo region 0 (jsSplit logFileContent '\n') emptyParsed

/-! ### Billboard association (`getBillboardsForProgram`) -/

/-- The keyword match used throughout the handler and the associator:
case-insensitive substring containment of the keyword in the title. -/
def matchesKeyword (keyword : String) (e : LogEntry) : Bool :=
  jsIncludes (jsToUpper e.databaseTitle) (jsToUpper keyword)

/-- Seconds-since-midnight computed from a `HH:MM:SS` string by splitting on
`":"` and `parseInt`-ing the first three pieces; `none` models the `NaN` that a
missing or non-numeric component produces. -/
def timeSecs (t : String) : Option Int :=
  let ps := jsSplit t ':'
  match jsParseInt (ps.getD 0 ""), jsParseInt (ps.getD 1 ""), jsParseInt (ps.getD 2 "") with
  | some h, some m, some s => some (h * 3600 + m * 60 + s)
  | _, _, _ => none

/-- The `nextProgSeconds` scan of `getBillboardsForProgram`: the first entry of
`allEntries` past the program's line that is of material type `"M"`/`"S"` and
has a truthy `time` sets the bound (which may itself be `NaN`, the inner
`none`); `none` means the bound was never set. -/
def nextProgramSeconds (allEntries : List LogEntry) (programLine : Nat) : Option (Option Int) :=
  match allEntries.find? (fun e =>
      decide (programLine < e.lineNumber) &&
      (e.materialType == "M" || e.materialType == "S") &&
      truthyOptStr e.time) with
  | none => none
  | some e => some (timeSecs (e.time.getD ""))

/-- The window test applied to one billboard: with a set bound, membership in
`[progSeconds, nextProgSeconds)`; with no bound, `progSeconds ≤ bbSeconds`.
Any `NaN` (`none`) makes every comparison false. -/
def bbIncluded (psOpt : Option Int) (w : Option (Option Int)) (bb : LogEntry) : Bool :=
  if truthyOptStr bb.time then
    match psOpt, timeSecs (bb.time.getD "") with
    | some ps, some bs =>
      match w with
      | some (some np) => decide (ps ≤ bs) && decide (bs < np)
      | some none => false
      | none => decide (ps ≤ bs)
    | _, _ => false
  else false

/-- The push condition for one billboard against one program instance: the
program's seconds-since-midnight and next-program bound fed to the window
test.  (The source computes the two bounds once before its billboard loop;
recomputing them per billboard is extensionally identical since everything is
pure.) -/
def bbCondFor (logData : ParsedLogData) (program bb : LogEntry) : Bool :=
  bbIncluded (timeSecs (program.time.getD ""))
    (nextProgramSeconds logData.allEntries program.lineNumber) bb

/-- The body of the associator's outer loop: skip a program instance without a
truthy time, otherwise push every billboard in its window that is not already
in the output. -/
def bbStep (logData : ParsedLogData) (acc : List LogEntry) (program : LogEntry) :
    List LogEntry :=
  if truthyOptStr program.time then
    logData.billboards.foldl
      (fun acc2 bb =>
        if bbCondFor logData program bb && !acc2.contains bb then acc2 ++ [bb] else acc2)
      acc
  else acc

/-- `getBillboardsForProgram` from the log parser: for each keyword-matching
program instance with a truthy time, push every billboard inside its window
that is not already in the output. -/
def getBillboardsForProgram (logData : ParsedLogData) (programKeyword : String) :
    List LogEntry :=
  let programInstances := logData.programs.filter (fun p => matchesKeyword programKeyword p)
  programInstances.foldl (bbStep logData) []

/-! ### Segment building (handler, lines 192-229) -/

/-- The gap test between consecutive matched entries: both timestamps non-null
and more than `MAX_GAP_MINUTES = 30` minutes (1 800 000 ms) apart.
(`gapMinutes > 30` over the reals is exactly `> 1 800 000` in milliseconds.) -/
def splitGap (a b : LogEntry) : Bool :=
  match a.dateTime, b.dateTime with
  | some t1, some t2 => decide (30 * 60000 < t2 - t1)
  | _, _ => false

/-- The segment-building loop, recast from index bookkeeping
(`currentSegmentStart`) to an accumulator holding the entries of the open
segment: the last entry always closes the segment, and a `splitGap` between
the current and next entry closes the segment at the current entry and opens a
new one at the next. -/
def buildSegmentsLoop : List LogEntry → List LogEntry → List (List LogEntry)
  | [], _ => []
  | [x], cur => [cur ++ [x]]
  | x :: y :: rest, cur =>
    if splitGap x y then (cur ++ [x]) :: buildSegmentsLoop (y :: rest) []
    else buildSegmentsLoop (y :: rest) (cur ++ [x])

/-- Segments (as their full entry lists) built from the matched entries; the
handler's `{startEntry, endEntry}` pair is the head and last of each group. -/
def buildSegments (entries : List LogEntry) : List (List LogEntry) :=
  buildSegmentsLoop entries []

/-! ### End-time resolution (handler, lines 283-303) -/

/-- The `nextDifferentProgram` scan: first entry of `parsedLogs.programs`
past the segment's end line whose title does not contain the keyword
(case-insensitively) and whose `dateTime` is non-null. -/
def nextDifferentProgram (progs : List LogEntry) (keyword : String) (endEntry : LogEntry) :
    Option LogEntry :=
  progs.find? (fun e =>
    decide (endEntry.lineNumber < e.lineNumber) &&
    !matchesKeyword keyword e &&
    e.dateTime.isSome)

/-- The resolved end time: the next different program's timestamp, defaulting
to start + 2 hours when none exists (the inner `none` branch mirrors the
handler's unreachable `isNaN` fallback). -/
def segEndTime (progs : List LogEntry) (keyword : String) (endEntry : LogEntry) (st : Int) : Int :=
  match nextDifferentProgram progs keyword endEntry with
  | some e =>
    match e.dateTime with
    | some et => et
    | none => st + 7200000
  | none => st + 7200000

/-- Start/end times of a segment, or `none` when the handler skips it
(`!startEntry.time || !startEntry.dateTime`). -/
def segmentTimes (progs : List LogEntry) (keyword : String) (startEntry endEntry : LogEntry) :
    Option (Int × Int) :=
  match startEntry.dateTime, truthyOptStr startEntry.time with
  | some st, true => some (st, segEndTime progs keyword endEntry st)
  | _, _ => none

/-! ### The persistence flow of the handler

The Prisma store is modelled as in-memory lists with a deterministic id
counter; `findFirst`/`findUnique` are `find?` over those lists in insertion
order. -/

structure Program where
  id : Nat
  name : String
  keyword : String
deriving DecidableEq

structure Day where
  id : Nat
  name : String
  date : Int
  programId : Nat
deriving DecidableEq

structure Broadcast where
  id : Nat
  name : String
  startTime : Int
  endTime : Int
  channel : String
  region : String
  dayId : Nat
deriving DecidableEq

def dfltBroadcast : Broadcast := ⟨0, "", 0, 0, "", "", 0⟩

structure LogFileRef where
  s3_key : String
  dayId : Nat
  region : String
  channel : String
deriving DecidableEq

structure DB where
  days : List Day
  broadcasts : List Broadcast
  logFiles : List LogFileRef
  nextId : Nat
deriving DecidableEq

def emptyDB : DB := ⟨[], [], [], 1⟩

/-- The three-disjunct overlap test of the handler's `broadcast.findFirst`
query, with `(es, ee)` the existing broadcast's interval and `(ns, ne)` the
candidate's: the candidate starts during the existing one, ends during it, or
fully contains it. -/
def overlapCheck (es ee ns ne : Int) : Bool :=
  (decide (es ≤ ns) && decide (ns < ee)) ||
  (decide (es < ne) && decide (ne ≤ ee)) ||
  (decide (ns ≤ es) && decide (ee ≤ ne))

def broadcastOverlaps (b : Broadcast) (startTime endTime : Int) : Bool :=
  overlapCheck b.startTime b.endTime startTime endTime

/-- The `broadcast.findFirst` overlap query for a day/channel/region. -/
def findOverlapping (db : DB) (dayId : Nat) (channel region : String) (st et : Int) :
    Option Broadcast :=
  db.broadcasts.find? (fun b =>
    b.dayId == dayId && b.channel == channel && b.region == region &&
    broadcastOverlaps b st et)

/-- Per-segment step of the handler: skip a segment without a valid start,
skip on overlap, otherwise create the broadcast and record a result row. -/
def processSegment (progs : List LogEntry) (program : Program) (dayId : Nat)
    (channel region : String) (st : DB × List (String × Int × Int))
    (seg : List LogEntry) : DB × List (String × Int × Int) :=
  let db := st.1
  let startEntry := seg.headD dfltEntry
  let endEntry := seg.getLastD dfltEntry
  match segmentTimes progs program.keyword startEntry endEntry with
  | none => st
  | some (s, e) =>
    match findOverlapping db dayId channel region s e with
    | some _ => st
    | none =>
      let b : Broadcast :=
        ⟨db.nextId, startEntry.databaseTitle ++ " (" ++ region ++ ")", s, e,
         channel, region, dayId⟩
      ({ db with broadcasts := db.broadcasts ++ [b], nextId := db.nextId + 1 },
       st.2 ++ [(program.name, s, e)])

/-- Per-program step of the handler: filter the matching entries, skip the
program when none match, otherwise find-or-create the Day, track it for the
LogFile pass, and process every built segment.  (The `toLocaleDateString`
rendering inside the Day name is modelled by `toString`.) -/
def processProgram (parsed : ParsedLogData) (date : Int) (region channel : String)
    (st : DB × List Nat × List (String × Int × Int)) (program : Program) :
    DB × List Nat × List (String × Int × Int) :=
  let db := st.1
  let daysNeeded := st.2.1
  let results := st.2.2
  let matchingEntries := parsed.programs.filter (fun e => matchesKeyword program.keyword e)
  if matchingEntries.isEmpty then st
  else
    let dayFound := db.days.find? (fun d => d.programId == program.id && d.date == date)
    let dbDay : DB × Day :=
      match dayFound with
      | some d => (db, d)
      | none =>
        let d : Day := ⟨db.nextId, program.name ++ " - " ++ toString date, date, program.id⟩
        ({ db with days := db.days ++ [d], nextId := db.nextId + 1 }, d)
    let day := dbDay.2
    let daysNeeded1 := if daysNeeded.contains day.id then daysNeeded else daysNeeded ++ [day.id]
    let segs := buildSegments matchingEntries
    let out := segs.foldl (processSegment parsed.programs program day.id channel region)
      (dbDay.1, results)
    (out.1, daysNeeded1, out.2)

def mainRegions : List String := ["SYD", "MEL", "BNE", "PER", "ADL"]

/-- Per-file flow of the handler after parsing: the program loop, then the
LogFile pass, which (for a main region, when at least one program matched)
creates at most one LogFile reference keyed by the file's `s3_key` — the
source loop `break`s after its first iteration on both branches, so only the
first tracked day is ever used. -/
def processFile (programs : List Program) (parsed : ParsedLogData) (date : Int)
    (region channel key : String) (db : DB) : DB × List (String × Int × Int) :=
  let res := programs.foldl (processProgram parsed date region channel) (db, [], [])
  let db1 := res.1
  let daysNeeded := res.2.1
  let results := res.2.2
  let db2 :=
    if mainRegions.contains region && !daysNeeded.isEmpty then
      match daysNeeded.head? with
      | none => db1
      | some dayId =>
        if (db1.logFiles.find? (fun lf => lf.s3_key == key)).isSome then db1
        else { db1 with logFiles := db1.logFiles ++ [⟨key, dayId, region, channel⟩] }
    else db1
  (db2, results)

/-! ### Concrete fixtures used by the scenario parts of the claims -/

/-- Pad a string with spaces on the right to the given length. -/
def padTo (s : String) (n : Nat) : String :=
  s ++ String.mk (List.replicate (n - strLen s) ' ')

/-- A 360-character fixed-width log line with the given timestamp field
(columns 55-75), material type (column 188) and title (columns 295-359). -/
def sampleLine (ts mt title : String) : String :=
  padTo (padTo (padTo (padTo "BNENIN" 55 ++ ts) 188 ++ mt) 295 ++ title) 360

/-! ### Structural lemmas about the decoder -/

/-- The entries produced by the line loop, in order. -/
def collectEntries (region : String) : Nat → List String → List LogEntry
  | _, [] => []
  | i, l :: ls =>
    match decodeLine i l region with
    | none => collectEntries region (i + 1) ls
    | some e => e :: collectEntries region (i + 1) ls

theorem parseLogsGo_allEntries (region : String) :
    ∀ (ls : List String) (i : Nat) (r : ParsedLogData),
      (parseLogsGo region i ls r).allEntries = r.allEntries ++ collectEntries region i ls
  | [], _, _ => by simp [parseLogsGo, collectEntries]
  | l :: ls, i, r => by
    cases h : decodeLine i l region with
    | none =>
      simp only [parseLogsGo, collectEntries, h]
      exact parseLogsGo_allEntries region ls (i + 1) r
    | some e =>
      simp only [parseLogsGo, collectEntries, h]
      rw [parseLogsGo_allEntries region ls (i + 1) (classifyEntry r e)]
      simp [classifyEntry]

theorem parseLogsGo_billboards (region : String) :
    ∀ (ls : List String) (i : Nat) (r : ParsedLogData),
      (parseLogsGo region i ls r).billboards =
        r.billboards ++ (collectEntries region i ls).filter (fun e => e.isBillboard.truthy)
  | [], _, _ => by simp [parseLogsGo, collectEntries]
  | l :: ls, i, r => by
    cases h : decodeLine i l region with
    | none =>
      simp only [parseLogsGo, collectEntries, h]
      exact parseLogsGo_billboards region ls (i + 1) r
    | some e =>
      simp only [parseLogsGo, collectEntries, h]
      rw [parseLogsGo_billboards region ls (i + 1) (classifyEntry r e)]
      by_cases ht : e.isBillboard.truthy <;> simp [classifyEntry, ht]

theorem parseLogsGo_programs (region : String) :
    ∀ (ls : List String) (i : Nat) (r : ParsedLogData),
      (parseLogsGo region i ls r).programs =
        r.programs ++ (collectEntries region i ls).filter
          (fun e => !e.isBillboard.truthy && (e.materialType == "M" || e.materialType == "S"))
  | [], _, _ => by simp [parseLogsGo, collectEntries]
  | l :: ls, i, r => by
    cases h : decodeLine i l region with
    | none =>
      simp only [parseLogsGo, collectEntries, h]
      exact parseLogsGo_programs region ls (i + 1) r
    | some e =>
      simp only [parseLogsGo, collectEntries, h]
      rw [parseLogsGo_programs region ls (i + 1) (classifyEntry r e)]
      by_cases hp : (!e.isBillboard.truthy && (e.materialType == "M" || e.materialType == "S")) = true <;>
        simp [classifyEntry, hp]

theorem parseLogs_allEntries (content region : String) :
    (parseLogs content region).allEntries = collectEntries region 0 (jsSplit content '\n') := by
  simp [parseLogs, parseLogsGo_allEntries, emptyParsed]

theorem parseLogs_billboards (content region : String) :
    (parseLogs content region).billboards =
      (collectEntries region 0 (jsSplit content '\n')).filter (fun e => e.isBillboard.truthy) := by
  simp [parseLogs, parseLogsGo_billboards, emptyParsed]

theorem parseLogs_programs (content region : String) :
    (parseLogs content region).programs =
      (collectEntries region 0 (jsSplit content '\n')).filter
        (fun e => !e.isBillboard.truthy && (e.materialType == "M" || e.materialType == "S")) := by
  simp [parseLogs, parseLogsGo_programs, emptyParsed]

theorem mkEntry_lineNumber (i : Nat) (l region : String) :
    (mkEntry i l region).lineNumber = i + 1 := rfl

theorem mkEntry_isBillboard (i : Nat) (l region : String) :
    (mkEntry i l region).isBillboard =
      mkIsBillboard (mkEntry i l region).materialType (mkEntry i l region).databaseTitle := rfl

theorem mkEntry_timestamps (i : Nat) (l region : String) :
    ((mkEntry i l region).dateTime, (mkEntry i l region).localDateTime,
      (mkEntry i l region).time) =
      parseTimestampRaw (jsTrim (jsSubstring l 55 75)) region := rfl

theorem mkEntry_dateTime (i : Nat) (l region : String) :
    (mkEntry i l region).dateTime =
      (parseTimestampRaw (jsTrim (jsSubstring l 55 75)) region).1 := rfl

theorem mkEntry_localDateTime (i : Nat) (l region : String) :
    (mkEntry i l region).localDateTime =
      (parseTimestampRaw (jsTrim (jsSubstring l 55 75)) region).2.1 := rfl

theorem mkEntry_time (i : Nat) (l region : String) :
    (mkEntry i l region).time =
      (parseTimestampRaw (jsTrim (jsSubstring l 55 75)) region).2.2 := rfl

theorem decodeLine_some {i : Nat} {l region : String} {e : LogEntry}
    (h : decodeLine i l region = some e) : e = mkEntry i l region := by
  by_cases h1 : jsTrim l = ""
  · simp [decodeLine, h1] at h
  · by_cases h2 : strLen l < 360
    · simp [decodeLine, h1, h2] at h
    · simp [decodeLine, h1, h2] at h
      exact h.symm

theorem decodeLine_kept {i : Nat} {l : String} (region : String)
    (h1 : jsTrim l ≠ "") (h2 : ¬ strLen l < 360) :
    decodeLine i l region = some (mkEntry i l region) := by
  simp [decodeLine, h1, h2]

/-- Structural well-formedness of the raw timestamp field: the checks the
parser performs before extracting components. -/
def tsWellFormed (raw : String) : Prop :=
  raw ≠ "" ∧ 17 ≤ strLen raw ∧ 2 ≤ (jsSplit raw ' ').length ∧
  8 ≤ strLen ((jsSplit raw ' ').getD 0 "") ∧
  3 ≤ (jsSplit ((jsSplit raw ' ').getD 1 "") ':').length

instance (raw : String) : Decidable (tsWellFormed raw) := by
  unfold tsWellFormed
  infer_instance

theorem parseTimestampRaw_not_wellFormed {raw : String} (region : String)
    (h : ¬ tsWellFormed raw) : parseTimestampRaw raw region = (none, none, none) := by
  unfold parseTimestampRaw
  dsimp only
  split_ifs with h1 h2 h3 h4
  · exact absurd ⟨h1.1, h1.2, h2, h3, h4⟩ h
  all_goals rfl

theorem parseTimestampRaw_shape (raw region : String) :
    ((parseTimestampRaw raw region).2.1 = none ↔ (parseTimestampRaw raw region).2.2 = none) ∧
    ((parseTimestampRaw raw region).1.isSome → (parseTimestampRaw raw region).2.2.isSome) := by
  unfold parseTimestampRaw
  dsimp only
  split_ifs <;> simp

theorem collect_lineNumber_lb (region : String) :
    ∀ (ls : List String) (i : Nat) (e : LogEntry),
      e ∈ collectEntries region i ls → i < e.lineNumber
  | [], _, _ => by simp [collectEntries]
  | l :: ls, i, e => by
    cases h : decodeLine i l region with
    | none =>
      simp only [collectEntries, h]
      intro hm
      exact Nat.lt_of_succ_lt (collect_lineNumber_lb region ls (i + 1) e hm)
    | some e0 =>
      simp only [collectEntries, h, List.mem_cons]
      rintro (rfl | hm)
      · rw [decodeLine_some h, mkEntry_lineNumber]
        exact Nat.lt_succ_self i
      · exact Nat.lt_of_succ_lt (collect_lineNumber_lb region ls (i + 1) e hm)

theorem collect_pairwise (region : String) :
    ∀ (ls : List String) (i : Nat),
      (collectEntries region i ls).Pairwise (fun a b => a.lineNumber < b.lineNumber)
  | [], _ => by simp [collectEntries]
  | l :: ls, i => by
    cases h : decodeLine i l region with
    | none =>
      simp only [collectEntries, h]
      exact collect_pairwise region ls (i + 1)
    | some e0 =>
      simp only [collectEntries, h]
      refine List.Pairwise.cons (fun b hb => ?_) (collect_pairwise region ls (i + 1))
      rw [decodeLine_some h, mkEntry_lineNumber]
      exact collect_lineNumber_lb region ls (i + 1) b hb

theorem collect_mem_decode (region : String) :
    ∀ (ls : List String) (i : Nat) (e : LogEntry), e ∈ collectEntries region i ls →
      ∃ j, ∃ h : j < ls.length, decodeLine (i + j) (ls.get ⟨j, h⟩) region = some e
  | [], _, _ => by simp [collectEntries]
  | l :: ls, i, e => by
    cases h : decodeLine i l region with
    | none =>
      simp only [collectEntries, h]
      intro hm
      obtain ⟨j, hj, hd⟩ := collect_mem_decode region ls (i + 1) e hm
      exact ⟨j + 1, Nat.succ_lt_succ hj, by simpa [Nat.add_comm, Nat.add_assoc, Nat.add_left_comm] using hd⟩
    | some e0 =>
      simp only [collectEntries, h, List.mem_cons]
      rintro (rfl | hm)
      · exact ⟨0, Nat.succ_pos _, by simpa using h⟩
      · obtain ⟨j, hj, hd⟩ := collect_mem_decode region ls (i + 1) e hm
        exact ⟨j + 1, Nat.succ_lt_succ hj, by simpa [Nat.add_comm, Nat.add_assoc, Nat.add_left_comm] using hd⟩

theorem decode_mem_collect (region : String) :
    ∀ (ls : List String) (i j : Nat) (h : j < ls.length) (e : LogEntry),
      decodeLine (i + j) (ls.get ⟨j, h⟩) region = some e →
      e ∈ collectEntries region i ls
  | [], _, j, h, _ => by simp at h
  | l :: ls, i, 0, _, e => by
    intro hd
    simp only [List.get] at hd
    simp only [collectEntries]
    rw [show i + 0 = i from rfl] at hd
    rw [hd]
    exact List.mem_cons_self _ _
  | l :: ls, i, j + 1, h, e => by
    intro hd
    simp only [List.get] at hd
    have hd2 : decodeLine ((i + 1) + j) (ls.get ⟨j, Nat.lt_of_succ_lt_succ h⟩) region = some e := by
      simpa [Nat.add_comm, Nat.add_assoc, Nat.add_left_comm] using hd
    have hm := decode_mem_collect region ls (i + 1) j (Nat.lt_of_succ_lt_succ h) e hd2
    cases hde : decodeLine i l region with
    | none => simpa only [collectEntries, hde] using hm
    | some e0 =>
      simp only [collectEntries, hde]
      exact List.mem_cons_of_mem _ hm

/-! ### Structure of `buildSegmentsLoop` -/

theorem buildSegmentsLoop_flatten :
    ∀ (l cur : List LogEntry), l ≠ [] → (buildSegmentsLoop l cur).flatten = cur ++ l
  | [], _, h => absurd rfl h
  | [x], cur, _ => by simp [buildSegmentsLoop]
  | x :: y :: rest, cur, _ => by
    cases h : splitGap x y with
    | true =>
      have ih := buildSegmentsLoop_flatten (y :: rest) [] (by simp)
      simp [buildSegmentsLoop, h, ih]
    | false =>
      have ih := buildSegmentsLoop_flatten (y :: rest) (cur ++ [x]) (by simp)
      simp [buildSegmentsLoop, h, ih]

theorem buildSegmentsLoop_ne_nil :
    ∀ (l cur : List LogEntry) (s : List LogEntry), s ∈ buildSegmentsLoop l cur → s ≠ []
  | [], _, s => by simp [buildSegmentsLoop]
  | [x], cur, s => by
    simp only [buildSegmentsLoop, List.mem_singleton]
    rintro rfl
    simp
  | x :: y :: rest, cur, s => by
    cases h : splitGap x y with
    | true =>
      simp only [buildSegmentsLoop, h, if_true, List.mem_cons]
      rintro (rfl | hm)
      · simp
      · exact buildSegmentsLoop_ne_nil (y :: rest) [] s hm
    | false =>
      simp only [buildSegmentsLoop, h]
      intro hm
      exact buildSegmentsLoop_ne_nil (y :: rest) (cur ++ [x]) s (by simpa using hm)

theorem buildSegmentsLoop_chain_within :
    ∀ (l cur : List LogEntry),
      (cur ++ l.take 1).Chain' (fun a b => splitGap a b = false) →
      ∀ s ∈ buildSegmentsLoop l cur, s.Chain' (fun a b => splitGap a b = false)
  | [], _, _ => by simp [buildSegmentsLoop]
  | [x], cur, H => by
    intro s
    simp only [buildSegmentsLoop, List.mem_singleton]
    rintro rfl
    simpa using H
  | x :: y :: rest, cur, H => by
    cases h : splitGap x y with
    | true =>
      intro s
      simp only [buildSegmentsLoop, h, if_true, List.mem_cons]
      rintro (rfl | hm)
      · simpa using H
      · exact buildSegmentsLoop_chain_within (y :: rest) [] (by simp) s hm
    | false =>
      intro s hm
      refine buildSegmentsLoop_chain_within (y :: rest) (cur ++ [x]) ?_ s
        (by simpa [buildSegmentsLoop, h] using hm)
      simp only [List.take_succ_cons, List.take_zero]
      rw [List.chain'_append]
      refine ⟨by simpa using H, by simp, ?_⟩
      intro a ha b hb
      rw [List.getLast?_concat] at ha
      simp only [List.head?_cons, Option.mem_def, Option.some.injEq] at ha hb
      subst ha
      subst hb
      exact h

theorem buildSegmentsLoop_head :
    ∀ (l cur : List LogEntry), l ≠ [] →
      ∃ s ss, buildSegmentsLoop l cur = s :: ss ∧ s.head? = (cur ++ l).head?
  | [], _, h => absurd rfl h
  | [x], cur, _ => ⟨cur ++ [x], [], rfl, rfl⟩
  | x :: y :: rest, cur, _ => by
    cases h : splitGap x y with
    | true =>
      refine ⟨cur ++ [x], buildSegmentsLoop (y :: rest) [],
        by simp [buildSegmentsLoop, h], ?_⟩
      cases cur <;> simp
    | false =>
      obtain ⟨s, ss, heq, hh⟩ := buildSegmentsLoop_head (y :: rest) (cur ++ [x]) (by simp)
      refine ⟨s, ss, by simp [buildSegmentsLoop, h, heq], ?_⟩
      rw [hh]
      simp

theorem buildSegmentsLoop_boundary :
    ∀ (l cur : List LogEntry),
      (buildSegmentsLoop l cur).Chain'
        (fun s t => splitGap (s.getLastD dfltEntry) (t.headD dfltEntry) = true)
  | [], _ => by simp [buildSegmentsLoop]
  | [x], cur => by simp [buildSegmentsLoop]
  | x :: y :: rest, cur => by
    cases h : splitGap x y with
    | false =>
      have ih := buildSegmentsLoop_boundary (y :: rest) (cur ++ [x])
      simpa [buildSegmentsLoop, h] using ih
    | true =>
      simp only [buildSegmentsLoop, h, if_true]
      obtain ⟨s, ss, heq, hh⟩ := buildSegmentsLoop_head (y :: rest) [] (by simp)
      rw [heq, List.chain'_cons']
      refine ⟨?_, by rw [← heq]; exact buildSegmentsLoop_boundary (y :: rest) []⟩
      intro t ht
      simp only [List.head?_cons, Option.mem_def, Option.some.injEq] at ht
      subst ht
      have hheadD : s.headD dfltEntry = y := by
        rw [List.headD_eq_head?, hh]
        simp
      have hlastD : (cur ++ [x]).getLastD dfltEntry = x := by
        rw [List.getLastD_eq_getLast?, List.getLast?_concat]
        simp
      rw [hheadD, hlastD]
      exact h

/-! ### `find?` characterisations -/

theorem find?_first {α : Type} (p : α → Bool) :
    ∀ (l₁ : List α) (e : α) (l₂ : List α), p e = true → (∀ x ∈ l₁, p x = false) →
      List.find? p (l₁ ++ e :: l₂) = some e
  | [], e, l₂, hp, _ => by simp [List.find?_cons, hp]
  | a :: l₁, e, l₂, hp, hall => by
    have ha := hall a (List.mem_cons_self a l₁)
    rw [List.cons_append, List.find?_cons_of_neg _ (by simp [ha])]
    exact find?_first p l₁ e l₂ hp (fun x hx => hall x (List.mem_cons_of_mem a hx))

theorem find?_filter {α : Type} (p q : α → Bool) :
    ∀ l : List α, List.find? p (l.filter q) = List.find? (fun a => q a && p a) l
  | [] => rfl
  | a :: l => by
    cases hq : q a with
    | false => simp [List.filter_cons, hq, List.find?_cons, find?_filter p q l]
    | true =>
      cases hp : p a with
      | false => simp [List.filter_cons, hq, List.find?_cons, hp, find?_filter p q l]
      | true => simp [List.filter_cons, hq, List.find?_cons, hp]

/-! ### Membership and nodup structure of `getBillboardsForProgram` -/

theorem contains_iff_mem (l : List LogEntry) (a : LogEntry) : l.contains a = true ↔ a ∈ l := by
  simp [List.contains_eq_any_beq, List.any_eq_true, beq_iff_eq]

theorem bbFold_mem (cond : LogEntry → Bool) :
    ∀ (bbs acc : List LogEntry) (b : LogEntry),
      (b ∈ bbs.foldl
          (fun a bb => if cond bb && !a.contains bb then a ++ [bb] else a) acc) ↔
        b ∈ acc ∨ (b ∈ bbs ∧ cond b = true)
  | [], acc, b => by simp
  | bb :: bbs, acc, b => by
    rw [List.foldl_cons, bbFold_mem cond bbs _ b]
    by_cases hc : cond bb = true
    · by_cases hm : acc.contains bb = true
      · have hbm : bb ∈ acc := (contains_iff_mem acc bb).mp hm
        simp only [hc, hm, Bool.not_true, Bool.and_false, if_false, List.mem_cons]
        constructor
        · rintro (h | ⟨h1, h2⟩)
          · exact Or.inl h
          · exact Or.inr ⟨Or.inr h1, h2⟩
        · rintro (h | ⟨(rfl | h1), h2⟩)
          · exact Or.inl h
          · exact Or.inl hbm
          · exact Or.inr ⟨h1, h2⟩
      · have hm0 : acc.contains bb = false := by simpa using hm
        simp only [hc, hm0, Bool.not_false, Bool.and_true, if_true, List.mem_append,
          List.mem_cons, List.not_mem_nil, or_false]
        constructor
        · rintro ((h | rfl) | ⟨h1, h2⟩)
          · exact Or.inl h
          · exact Or.inr ⟨Or.inl rfl, hc⟩
          · exact Or.inr ⟨Or.inr h1, h2⟩
        · rintro (h | ⟨(rfl | h1), h2⟩)
          · exact Or.inl (Or.inl h)
          · exact Or.inl (Or.inr rfl)
          · exact Or.inr ⟨h1, h2⟩
    · have hc0 : cond bb = false := by simpa using hc
      simp only [hc0, Bool.false_and, if_false, List.mem_cons]
      constructor
      · rintro (h | ⟨h1, h2⟩)
        · exact Or.inl h
        · exact Or.inr ⟨Or.inr h1, h2⟩
      · rintro (h | ⟨(rfl | h1), h2⟩)
        · exact Or.inl h
        · exact absurd h2 (by simp [hc0])
        · exact Or.inr ⟨h1, h2⟩

theorem bbFold_nodup (cond : LogEntry → Bool) :
    ∀ (bbs acc : List LogEntry), acc.Nodup →
      (bbs.foldl (fun a bb => if cond bb && !a.contains bb then a ++ [bb] else a) acc).Nodup
  | [], _, h => h
  | bb :: bbs, acc, h => by
    rw [List.foldl_cons]
    refine bbFold_nodup cond bbs _ ?_
    by_cases hc : (cond bb && !acc.contains bb) = true
    · have hc2 : cond bb = true ∧ (!acc.contains bb) = true := by
        rw [Bool.and_eq_true] at hc
        exact hc
      have hnm : bb ∉ acc := by
        intro hx
        rw [(contains_iff_mem acc bb).mpr hx] at hc2
        simp at hc2
      simp only [hc, if_true]
      exact List.nodup_append_comm.mp (by simpa using List.Nodup.cons hnm h)
    · rw [if_neg hc]
      exact h

theorem bbStep_mem (logData : ParsedLogData) (p : LogEntry) (acc : List LogEntry)
    (b : LogEntry) :
    b ∈ bbStep logData acc p ↔
      b ∈ acc ∨ (truthyOptStr p.time = true ∧ b ∈ logData.billboards ∧
        bbCondFor logData p b = true) := by
  unfold bbStep
  by_cases hp : truthyOptStr p.time = true
  · rw [if_pos hp, bbFold_mem (bbCondFor logData p) logData.billboards acc b]
    simp [hp]
  · rw [if_neg hp]
    simp only [iff_self_or]
    rintro ⟨h1, -⟩
    exact absurd h1 hp

theorem billboardsOuter_mem (logData : ParsedLogData) :
    ∀ (instances acc : List LogEntry) (b : LogEntry),
      b ∈ instances.foldl (bbStep logData) acc ↔
        b ∈ acc ∨ ∃ p ∈ instances, truthyOptStr p.time = true ∧
          b ∈ logData.billboards ∧ bbCondFor logData p b = true
  | [], acc, b => by simp
  | p :: instances, acc, b => by
    rw [List.foldl_cons, billboardsOuter_mem logData instances _ b, bbStep_mem]
    constructor
    · rintro ((h | ⟨h1, h2, h3⟩) | ⟨q, hq, h3, h4, h5⟩)
      · exact Or.inl h
      · exact Or.inr ⟨p, List.mem_cons_self p instances, h1, h2, h3⟩
      · exact Or.inr ⟨q, List.mem_cons_of_mem p hq, h3, h4, h5⟩
    · rintro (h | ⟨q, hq, h3, h4, h5⟩)
      · exact Or.inl (Or.inl h)
      · rcases List.mem_cons.mp hq with rfl | hq2
        · exact Or.inl (Or.inr ⟨h3, h4, h5⟩)
        · exact Or.inr ⟨q, hq2, h3, h4, h5⟩

theorem billboardsOuter_nodup (logData : ParsedLogData) :
    ∀ (instances acc : List LogEntry), acc.Nodup →
      (instances.foldl (bbStep logData) acc).Nodup
  | [], _, h => h
  | p :: instances, acc, h => by
    rw [List.foldl_cons]
    refine billboardsOuter_nodup logData instances _ ?_
    unfold bbStep
    by_cases hp : truthyOptStr p.time = true
    · rw [if_pos hp]
      exact bbFold_nodup (bbCondFor logData p) logData.billboards acc h
    · rwa [if_neg hp]

theorem getBillboardsForProgram_mem (logData : ParsedLogData) (keyword : String)
    (b : LogEntry) :
    b ∈ getBillboardsForProgram logData keyword ↔
      ∃ p ∈ logData.programs, matchesKeyword keyword p = true ∧
        truthyOptStr p.time = true ∧ b ∈ logData.billboards ∧
        bbCondFor logData p b = true := by
  unfold getBillboardsForProgram
  rw [billboardsOuter_mem logData _ [] b]
  simp only [List.not_mem_nil, false_or, List.mem_filter]
  constructor
  · rintro ⟨p, ⟨hp1, hp2⟩, h3, h4, h5⟩
    exact ⟨p, hp1, hp2, h3, h4, h5⟩
  · rintro ⟨p, hp1, hp2, h3, h4, h5⟩
    exact ⟨p, ⟨hp1, hp2⟩, h3, h4, h5⟩

theorem getBillboardsForProgram_nodup (logData : ParsedLogData) (keyword : String) :
    (getBillboardsForProgram logData keyword).Nodup :=
  billboardsOuter_nodup logData _ [] List.nodup_nil

/-! ### The `programs` list is the material-type M/S sub-sequence -/

theorem mkIsBillboard_not_I {mt title : String} (h : mt ≠ "I") :
    mkIsBillboard mt title = .bool false := by
  simp [mkIsBillboard, h]

theorem parseLogs_programs_eq_filter_MS (content region : String) :
    (parseLogs content region).programs =
      (parseLogs content region).allEntries.filter
        (fun e => e.materialType == "M" || e.materialType == "S") := by
  rw [parseLogs_programs, parseLogs_allEntries]
  refine List.filter_congr ?_
  intro e he
  obtain ⟨j, hj, hd⟩ := collect_mem_decode region _ 0 e he
  have hIB : e.isBillboard = mkIsBillboard e.materialType e.databaseTitle := by
    rw [decodeLine_some hd]
    exact mkEntry_isBillboard _ _ _
  cases hms : (e.materialType == "M" || e.materialType == "S") with
  | false => simp [hms]
  | true =>
    have hne : e.materialType ≠ "I" := by
      rcases (by simpa using hms : e.materialType = "M" ∨ e.materialType = "S") with h | h <;>
        simp [h]
    rw [hIB, mkIsBillboard_not_I hne]
    simp [StrOrBool.truthy]

/-! ### Declarative characterisation used by the end-time claim -/

/-- The claim-side description of the entry that resolves a segment's end
time: a program-type entry past the segment's end line whose title does not
contain the keyword (case-insensitively) and whose timestamp is non-null. -/
def progTypeNext (keyword : String) (endEntry e : LogEntry) : Prop :=
  (e.materialType = "M" ∨ e.materialType = "S") ∧ endEntry.lineNumber < e.lineNumber ∧
  matchesKeyword keyword e = false ∧ e.dateTime ≠ none

instance (keyword : String) (endEntry e : LogEntry) :
    Decidable (progTypeNext keyword endEntry e) := by
  unfold progTypeNext
  infer_instance

theorem progTypeNextBool (keyword : String) (endEntry e : LogEntry) :
    ((e.materialType == "M" || e.materialType == "S") &&
      (decide (endEntry.lineNumber < e.lineNumber) && !matchesKeyword keyword e &&
        e.dateTime.isSome)) = true ↔ progTypeNext keyword endEntry e := by
  simp only [progTypeNext, Bool.and_eq_true, Bool.or_eq_true, beq_iff_eq,
    decide_eq_true_eq, Bool.not_eq_true', Option.isSome_iff_ne_none]
  tauto

theorem nextDifferentProgram_of_first (content region keyword : String)
    (endEntry e : LogEntry) (l₁ l₂ : List LogEntry)
    (heq : (parseLogs content region).allEntries = l₁ ++ e :: l₂)
    (hP : progTypeNext keyword endEntry e)
    (hfirst : ∀ x ∈ l₁, ¬ progTypeNext keyword endEntry x) :
    nextDifferentProgram (parseLogs content region).programs keyword endEntry = some e := by
  unfold nextDifferentProgram
  rw [parseLogs_programs_eq_filter_MS, find?_filter, heq]
  exact find?_first _ l₁ e l₂ ((progTypeNextBool keyword endEntry e).mpr hP)
    (fun x hx => Bool.eq_false_iff.mpr
      (fun hx2 => hfirst x hx ((progTypeNextBool keyword endEntry x).mp hx2)))

theorem nextDifferentProgram_of_none (content region keyword : String)
    (endEntry : LogEntry)
    (hnone : ∀ x ∈ (parseLogs content region).allEntries, ¬ progTypeNext keyword endEntry x) :
    nextDifferentProgram (parseLogs content region).programs keyword endEntry = none := by
  unfold nextDifferentProgram
  rw [parseLogs_programs_eq_filter_MS, find?_filter]
  exact List.find?_eq_none.mpr
    (fun x hx hx2 => hnone x hx ((progTypeNextBool keyword endEntry x).mp hx2))

/-! ### Database-state invariants of the handler flow -/

theorem processSegment_logFiles (progs : List LogEntry) (program : Program) (dayId : Nat)
    (channel region : String) (st : DB × List (String × Int × Int)) (seg : List LogEntry) :
    (processSegment progs program dayId channel region st seg).1.logFiles = st.1.logFiles := by
  unfold processSegment
  dsimp only
  split
  · rfl
  · split
    · rfl
    · rfl

theorem segsFold_logFiles (progs : List LogEntry) (program : Program) (dayId : Nat)
    (channel region : String) :
    ∀ (segs : List (List LogEntry)) (st : DB × List (String × Int × Int)),
      (segs.foldl (processSegment progs program dayId channel region) st).1.logFiles =
        st.1.logFiles
  | [], _ => rfl
  | seg :: segs, st => by
    rw [List.foldl_cons, segsFold_logFiles progs program dayId channel region segs _,
      processSegment_logFiles]

theorem processProgram_logFiles (parsed : ParsedLogData) (date : Int)
    (region channel : String) (st : DB × List Nat × List (String × Int × Int))
    (program : Program) :
    (processProgram parsed date region channel st program).1.logFiles = st.1.logFiles := by
  unfold processProgram
  dsimp only
  split
  · rfl
  · split
    · rw [segsFold_logFiles]
    · rw [segsFold_logFiles]

theorem programsFold_logFiles (parsed : ParsedLogData) (date : Int)
    (region channel : String) :
    ∀ (programs : List Program) (st : DB × List Nat × List (String × Int × Int)),
      (programs.foldl (processProgram parsed date region channel) st).1.logFiles =
        st.1.logFiles
  | [], _ => rfl
  | p :: ps, st => by
    rw [List.foldl_cons, programsFold_logFiles parsed date region channel ps _,
      processProgram_logFiles]

theorem processProgram_noMatch (parsed : ParsedLogData) (date : Int)
    (region channel : String) (st : DB × List Nat × List (String × Int × Int))
    (program : Program)
    (h : ∀ e ∈ parsed.programs, matchesKeyword program.keyword e = false) :
    processProgram parsed date region channel st program = st := by
  have hf : parsed.programs.filter (fun e => matchesKeyword program.keyword e) = [] :=
    List.filter_eq_nil_iff.mpr (fun a ha => by simp [h a ha])
  unfold processProgram
  dsimp only
  rw [hf]
  rfl

theorem programsFold_noMatch (parsed : ParsedLogData) (date : Int)
    (region channel : String) :
    ∀ (programs : List Program) (st : DB × List Nat × List (String × Int × Int)),
      (∀ pr ∈ programs, ∀ e ∈ parsed.programs, matchesKeyword pr.keyword e = false) →
      programs.foldl (processProgram parsed date region channel) st = st
  | [], _, _ => rfl
  | p :: ps, st, h => by
    rw [List.foldl_cons, processProgram_noMatch parsed date region channel st p
      (h p (List.mem_cons_self p ps))]
    exact programsFold_noMatch parsed date region channel ps st
      (fun pr hpr => h pr (List.mem_cons_of_mem p hpr))

/-! ### Segment helpers for the partition claim -/

theorem buildSegments_flatten (l : List LogEntry) : (buildSegments l).flatten = l := by
  cases l with
  | nil => rfl
  | cons x xs => exact buildSegmentsLoop_flatten (x :: xs) [] (by simp)

theorem headD_mem {s : List LogEntry} (h : s ≠ []) : s.headD dfltEntry ∈ s := by
  cases s with
  | nil => exact absurd rfl h
  | cons a t => exact List.mem_cons_self a t

theorem buildSegments_heads_pairwise (l : List LogEntry)
    (hp : (l.map (fun e => e.lineNumber)).Pairwise (· < ·)) :
    ((buildSegments l).map (fun s => (s.headD dfltEntry).lineNumber)).Pairwise (· < ·) := by
  have h1 : l.Pairwise (fun a b => a.lineNumber < b.lineNumber) := List.pairwise_map.mp hp
  rw [← buildSegments_flatten l] at h1
  have h2 := List.pairwise_flatten.mp h1
  rw [List.pairwise_map]
  refine List.Pairwise.imp_of_mem ?_ h2.2
  intro s t hs ht hrel
  exact hrel _ (headD_mem (buildSegmentsLoop_ne_nil l [] s hs))
    _ (headD_mem (buildSegmentsLoop_ne_nil l [] t ht))

theorem segmentTimes_none_of_noStart (progs : List LogEntry) (keyword : String)
    (startEntry endEntry : LogEntry) (h : startEntry.dateTime = none) :
    segmentTimes progs keyword startEntry endEntry = none := by
  simp [segmentTimes, h]

theorem processSegment_skip (progs : List LogEntry) (program : Program) (dayId : Nat)
    (channel region : String) (st : DB × List (String × Int × Int)) (seg : List LogEntry)
    (h : (seg.headD dfltEntry).dateTime = none) :
    processSegment progs program dayId channel region st seg = st := by
  unfold processSegment
  dsimp only
  rw [segmentTimes_none_of_noStart progs program.keyword _ _ h]

/-! ### Declarative window reading of the associator's push condition -/

/-- The claim-side description of the entry that bounds a program's window:
the next program-type entry after it in line order with a usable time. -/
def nextProgPred (pl : Nat) (e : LogEntry) : Prop :=
  pl < e.lineNumber ∧ (e.materialType = "M" ∨ e.materialType = "S") ∧
  truthyOptStr e.time = true

instance (pl : Nat) (e : LogEntry) : Decidable (nextProgPred pl e) := by
  unfold nextProgPred
  infer_instance

theorem nextProgPredBool (pl : Nat) (e : LogEntry) :
    (decide (pl < e.lineNumber) && (e.materialType == "M" || e.materialType == "S") &&
      truthyOptStr e.time) = true ↔ nextProgPred pl e := by
  simp only [nextProgPred, Bool.and_eq_true, Bool.or_eq_true, beq_iff_eq,
    decide_eq_true_eq]
  tauto

theorem nextProgramSeconds_of_first (allEntries : List LogEntry) (pl : Nat)
    (e : LogEntry) (l₁ l₂ : List LogEntry) (heq : allEntries = l₁ ++ e :: l₂)
    (hP : nextProgPred pl e) (hfirst : ∀ x ∈ l₁, ¬ nextProgPred pl x) :
    nextProgramSeconds allEntries pl = some (timeSecs (e.time.getD "")) := by
  unfold nextProgramSeconds
  rw [heq, find?_first _ l₁ e l₂ ((nextProgPredBool pl e).mpr hP)
    (fun x hx => Bool.eq_false_iff.mpr
      (fun hx2 => hfirst x hx ((nextProgPredBool pl x).mp hx2)))]

theorem nextProgramSeconds_of_none (allEntries : List LogEntry) (pl : Nat)
    (hnone : ∀ x ∈ allEntries, ¬ nextProgPred pl x) :
    nextProgramSeconds allEntries pl = none := by
  unfold nextProgramSeconds
  rw [List.find?_eq_none.mpr
    (fun x hx hx2 => hnone x hx ((nextProgPredBool pl x).mp hx2))]

/-- The window condition of the claim, spelled declaratively: both the
program's and the billboard's time fields are truthy `HH:MM:SS`-style strings
with numeric seconds values, and the billboard's seconds value lies in
`[ps, np)` when a next-program bound was found (with a numeric value), or at
or after `ps` when no next program exists. -/
def inWindow (logData : ParsedLogData) (p b : LogEntry) : Prop :=
  ∃ pt, p.time = some pt ∧ pt ≠ "" ∧
  ∃ ps, timeSecs pt = some ps ∧
  ∃ bt, b.time = some bt ∧ bt ≠ "" ∧
  ∃ bs, timeSecs bt = some bs ∧
  (match nextProgramSeconds logData.allEntries p.lineNumber with
   | none => ps ≤ bs
   | some w => ∃ np, w = some np ∧ ps ≤ bs ∧ bs < np)

theorem bbCond_iff (logData : ParsedLogData) (p b : LogEntry) :
    (truthyOptStr p.time = true ∧ bbCondFor logData p b = true) ↔
      inWindow logData p b := by
  unfold bbCondFor bbIncluded inWindow
  cases hpt : p.time with
  | none => simp [truthyOptStr, hpt]
  | some pt =>
    by_cases hptne : pt = ""
    · simp [truthyOptStr, hpt, hptne]
    · cases hbt : b.time with
      | none => simp [truthyOptStr, hpt, hptne, hbt]
      | some bt =>
        by_cases hbtne : bt = ""
        · simp [truthyOptStr, hpt, hptne, hbt, hbtne]
        · simp only [truthyOptStr, hpt, hbt, Option.getD_some, bne_iff_ne, ne_eq,
            hptne, hbtne, not_false_eq_true, if_true, true_and, Option.some.injEq]
          cases hps : timeSecs pt with
          | none => simp [hps]
          | some ps =>
            cases hbs : timeSecs bt with
            | none => simp [hps, hbs]
            | some bs =>
              cases hw : nextProgramSeconds logData.allEntries p.lineNumber with
              | none => simp [hps, hbs, hptne, hbtne]
              | some w =>
                cases w with
                | none => simp [hps, hbs, hptne, hbtne]
                | some np => simp [hps, hbs, hptne, hbtne]

/-! ### Concrete fixtures for the scenario parts of the claims -/

def e0600 : LogEntry := { dfltEntry with lineNumber := 1, dateTime := some 21600000 }

def e0620 : LogEntry := { dfltEntry with lineNumber := 2, dateTime := some 22800000 }

def e0705 : LogEntry := { dfltEntry with lineNumber := 3, dateTime := some 25500000 }

def eNoTime : LogEntry := { dfltEntry with lineNumber := 1 }

/-- Two-line log: a UNITED CUP program line at 06:00 followed by a different
program line at 08:00, Brisbane local time. -/
def c3content : String :=
  sampleLine "20260104 06:00:00:00" "M" "UNITED CUP DAY 4" ++ "\n" ++
  sampleLine "20260104 08:00:00:00" "M" "NEWS BULLETIN"

def p1 : LogEntry := { dfltEntry with
  lineNumber := 1
  materialType := "M"
  databaseTitle := "UNITED CUP DAY 4"
  time := some "06:00:00" }

def bb1 : LogEntry := { dfltEntry with
  lineNumber := 2
  materialType := "I"
  databaseTitle := "OB UNITED"
  isBillboard := .bool true
  time := some "06:05:00" }

def pNext : LogEntry := { dfltEntry with
  lineNumber := 3
  materialType := "M"
  databaseTitle := "NEWS"
  time := some "07:00:00" }

def bb2 : LogEntry := { dfltEntry with
  lineNumber := 4
  materialType := "I"
  databaseTitle := "CB UNITED"
  isBillboard := .bool true
  time := some "07:10:00" }

/-- Program window `[06:00:00, 07:00:00)` with billboards at 06:05:00 (inside)
and 07:10:00 (outside). -/
def c4data : ParsedLogData := ⟨[bb1, bb2], [p1, pNext], [p1, bb1, pNext, bb2]⟩

/-- One-line log: `materialType "M"`, title `UNITED CUP DAY 4`, local time
2026-01-04 06:00:00. -/
def c6content : String := sampleLine "20260104 06:00:00:00" "M" "UNITED CUP DAY 4"

def c6programs : List Program := [⟨1, "United Cup", "UNITED CUP"⟩]

/-! ## The claims -/

/-- Claim C1: walking matched entries in line order with `maxGapMinutes = 30`,
segment building closes the current segment at entry `i` and opens a new one
at entry `i+1` exactly when both timestamps are non-null and the gap exceeds
30 minutes; a null timestamp never splits; the final entry closes the last
open segment.  Stated as: the segments concatenate back to the input, no
adjacent pair inside a segment satisfies the gap condition, every adjacent
pair across a segment boundary does, the gap condition is exactly
"both non-null and more than 30 minutes apart", and the 06:00/06:20/07:05
scenario yields exactly the two segments split between 06:20 and 07:05. -/
theorem claim1_gap_segmentation :
    (∀ l : List LogEntry,
      (buildSegments l).flatten = l ∧
      (∀ s ∈ buildSegments l, s ≠ [] ∧ s.Chain' (fun a b => splitGap a b = false)) ∧
      (buildSegments l).Chain'
        (fun s t => splitGap (s.getLastD dfltEntry) (t.headD dfltEntry) = true)) ∧
    (∀ a b : LogEntry, splitGap a b = true ↔
      ∃ ta tb : Int, a.dateTime = some ta ∧ b.dateTime = some tb ∧ 30 * 60000 < tb - ta) ∧
    buildSegments [e0600, e0620, e0705] = [[e0600, e0620], [e0705]] := by
  refine ⟨fun l => ⟨buildSegments_flatten l,
      fun s hs => ⟨buildSegmentsLoop_ne_nil l [] s hs,
        buildSegmentsLoop_chain_within l [] (by cases l <;> simp) s hs⟩,
      buildSegmentsLoop_boundary l []⟩, ?_, by decide⟩
  intro a b
  unfold splitGap
  cases hda : a.dateTime <;> cases hdb : b.dateTime <;> simp

/-- Witness for C1: the first segment of the scenario is nonempty and has no
internal gap split. -/
theorem claim1_gap_segmentation_witness :
    [e0600, e0620] ≠ [] ∧ List.Chain' (fun a b => splitGap a b = false) [e0600, e0620] :=
  (claim1_gap_segmentation.1 [e0600, e0620, e0705]).2.1 [e0600, e0620] (by decide)

/-- Claim C2: the handler's three-disjunct overlap query is exactly the
half-open interval overlap test `¬(ne ≤ es ∨ ee ≤ ns)` for well-formed
intervals, and the four concrete candidates against `[600, 660)` (minutes)
behave as specified: the three overlapping ones are detected, the abutting
`[660, 720)` is not. -/
theorem claim2_overlap_condition :
    (∀ es ee ns ne : Int, es < ee → ns < ne →
      (overlapCheck es ee ns ne = true ↔ ¬(ne ≤ es ∨ ee ≤ ns))) ∧
    overlapCheck 600 660 630 645 = true ∧ overlapCheck 600 660 570 630 = true ∧
    overlapCheck 600 660 645 690 = true ∧ overlapCheck 600 660 660 720 = false := by
  refine ⟨?_, by decide, by decide, by decide, by decide⟩
  intro es ee ns ne h1 h2
  unfold overlapCheck
  simp only [Bool.or_eq_true, Bool.and_eq_true, decide_eq_true_eq]
  constructor
  · intro h
    omega
  · intro h
    omega

/-- Witness for C2: the contained candidate `[630, 645)` is flagged as
overlapping `[600, 660)`. -/
theorem claim2_overlap_condition_witness : overlapCheck 600 660 630 645 = true :=
  (claim2_overlap_condition.1 600 660 630 645 (by decide) (by decide)).mpr (by decide)

/-- Claim C5: for matched entries with strictly increasing line numbers, the
built segments have strictly increasing start line numbers and their entry
lists concatenate back to the input (a partition: nothing duplicated, nothing
dropped); a segment whose start entry has a null timestamp is skipped by the
per-segment handler step and never produces a broadcast. -/
theorem claim5_segment_partition (l : List LogEntry)
    (hp : (l.map (fun e => e.lineNumber)).Pairwise (· < ·)) :
    ((buildSegments l).map (fun s => (s.headD dfltEntry).lineNumber)).Pairwise (· < ·) ∧
    (buildSegments l).flatten = l ∧
    (∀ s ∈ buildSegments l, (s.headD dfltEntry).dateTime = none →
      ∀ (progs : List LogEntry) (program : Program) (dayId : Nat)
        (channel region : String) (st : DB × List (String × Int × Int)),
        processSegment progs program dayId channel region st s = st) :=
  ⟨buildSegments_heads_pairwise l hp, buildSegments_flatten l,
   fun s _ h progs program dayId channel region st =>
     processSegment_skip progs program dayId channel region st s h⟩

/-- Witness for C5: a one-entry segment with a null start timestamp leaves
the handler state untouched. -/
theorem claim5_segment_partition_witness :
    processSegment [] ⟨1, "P", "K"⟩ 0 "CH9" "BNE" (emptyDB, []) [eNoTime] = (emptyDB, []) :=
  (claim5_segment_partition [eNoTime] (by decide)).2.2 [eNoTime] (by decide) (by decide)
    [] ⟨1, "P", "K"⟩ 0 "CH9" "BNE" (emptyDB, [])

/-- Claim C9: timezone resolution is total (always returns one of the five
zone identifiers, never throws) and an unknown region code resolves to the
default zone `Australia/Sydney`, which is the returned value, hence observable
to the caller. -/
theorem claim9_timezone_fallback :
    (∀ r : String, getTimezoneForRegion r ∈
      ["Australia/Sydney", "Australia/Melbourne", "Australia/Brisbane",
       "Australia/Perth", "Australia/Adelaide"]) ∧
    (∀ r : String, r ∉ (["SYD", "MEL", "BNE", "PER", "ADL"] : List String) →
      getTimezoneForRegion r = "Australia/Sydney") := by
  constructor
  · intro r
    unfold getTimezoneForRegion
    split_ifs <;> simp
  · intro r hr
    unfold getTimezoneForRegion
    split_ifs with h1 h2 h3 h4 h5 <;> first | rfl | exact absurd (by simp [*]) hr

/-- Witness for C9: the unknown region code `XYZ` resolves to the default. -/
theorem claim9_timezone_fallback_witness :
    getTimezoneForRegion "XYZ" = "Australia/Sydney" :=
  claim9_timezone_fallback.2 "XYZ" (by decide)

/-- Claim C3: for a segment whose start entry has a valid timestamp, the
resolved end time is the timestamp of the first program-type entry (in line
order over the whole decoded log) past the segment's end line whose title does
not contain the keyword case-insensitively and whose timestamp is non-null;
when no such entry exists the end time is the start time plus two hours. -/
theorem claim3_end_time_resolution (content region keyword : String)
    (startEntry endEntry : LogEntry) (st : Int) (ts : String)
    (hdt : startEntry.dateTime = some st) (hts : startEntry.time = some ts)
    (hne : ts ≠ "") :
    (∀ (e : LogEntry) (l₁ l₂ : List LogEntry),
      (parseLogs content region).allEntries = l₁ ++ e :: l₂ →
      progTypeNext keyword endEntry e →
      (∀ x ∈ l₁, ¬ progTypeNext keyword endEntry x) →
      ∃ et : Int, e.dateTime = some et ∧
        segmentTimes (parseLogs content region).programs keyword startEntry endEntry =
          some (st, et)) ∧
    ((∀ x ∈ (parseLogs content region).allEntries, ¬ progTypeNext keyword endEntry x) →
      segmentTimes (parseLogs content region).programs keyword startEntry endEntry =
        some (st, st + 7200000)) := by
  have htr : truthyOptStr startEntry.time = true := by simp [truthyOptStr, hts, hne]
  constructor
  · intro e l₁ l₂ heq hP hfirst
    obtain ⟨et, het⟩ := Option.ne_none_iff_exists'.mp hP.2.2.2
    refine ⟨et, het, ?_⟩
    unfold segmentTimes
    rw [hdt, htr]
    dsimp only
    unfold segEndTime
    rw [nextDifferentProgram_of_first content region keyword endEntry e l₁ l₂ heq hP hfirst]
    dsimp only
    rw [het]
  · intro hnone
    unfold segmentTimes
    rw [hdt, htr]
    dsimp only
    unfold segEndTime
    rw [nextDifferentProgram_of_none content region keyword endEntry hnone]

set_option maxRecDepth 100000 in
/-- Witness for C3: on the two-line Brisbane log, the UNITED CUP segment's end
time resolves to the NEWS BULLETIN line's 08:00 timestamp. -/
theorem claim3_end_time_resolution_witness :
    ∃ et : Int,
      ((parseLogs c3content "BNE").allEntries.getD 1 dfltEntry).dateTime = some et ∧
      segmentTimes (parseLogs c3content "BNE").programs "UNITED CUP"
        ((parseLogs c3content "BNE").programs.headD dfltEntry)
        ((parseLogs c3content "BNE").programs.headD dfltEntry) =
        some (dateUTCMillis 2026 1 3 20 0 0, et) :=
  (claim3_end_time_resolution c3content "BNE" "UNITED CUP"
      ((parseLogs c3content "BNE").programs.headD dfltEntry)
      ((parseLogs c3content "BNE").programs.headD dfltEntry)
      (dateUTCMillis 2026 1 3 20 0 0) "06:00:00" (by decide) (by decide) (by decide)).1
    ((parseLogs c3content "BNE").allEntries.getD 1 dfltEntry)
    [(parseLogs c3content "BNE").allEntries.headD dfltEntry] []
    (by decide) (by decide) (by decide)

/-- Claim C4: billboard association returns exactly the billboard entries
whose seconds-since-midnight lies in the window of some keyword-matching
program entry — `[ps, np)` against the next program-type entry's seconds when
one exists, `[ps, ∞)` otherwise — with windows of different matches unioned,
duplicates suppressed (the result has no duplicates), and the stated
06:00-07:00 scenario including the 06:05 billboard and excluding the 07:10
one. -/
theorem claim4_billboard_association :
    (∀ (logData : ParsedLogData) (keyword : String) (b : LogEntry),
      b ∈ getBillboardsForProgram logData keyword ↔
        b ∈ logData.billboards ∧
        ∃ p ∈ logData.programs, matchesKeyword keyword p = true ∧ inWindow logData p b) ∧
    (∀ (logData : ParsedLogData) (keyword : String),
      (getBillboardsForProgram logData keyword).Nodup) ∧
    (∀ (allEntries : List LogEntry) (pl : Nat) (e : LogEntry) (l₁ l₂ : List LogEntry),
      allEntries = l₁ ++ e :: l₂ → nextProgPred pl e → (∀ x ∈ l₁, ¬ nextProgPred pl x) →
      nextProgramSeconds allEntries pl = some (timeSecs (e.time.getD ""))) ∧
    (∀ (allEntries : List LogEntry) (pl : Nat),
      (∀ x ∈ allEntries, ¬ nextProgPred pl x) → nextProgramSeconds allEntries pl = none) ∧
    getBillboardsForProgram c4data "UNITED CUP" = [bb1] := by
  refine ⟨?_, getBillboardsForProgram_nodup, nextProgramSeconds_of_first,
    nextProgramSeconds_of_none, by decide⟩
  intro logData keyword b
  rw [getBillboardsForProgram_mem]
  constructor
  · rintro ⟨p, hp, hm, ht, hb, hc⟩
    exact ⟨hb, p, hp, hm, (bbCond_iff logData p b).mp ⟨ht, hc⟩⟩
  · rintro ⟨hb, p, hp, hm, hw⟩
    obtain ⟨ht, hc⟩ := (bbCond_iff logData p b).mpr hw
    exact ⟨p, hp, hm, ht, hb, hc⟩

/-- Witness for C4: the 06:05 billboard is in the UNITED CUP window of the
scenario data. -/
theorem claim4_billboard_association_witness :
    bb1 ∈ getBillboardsForProgram c4data "UNITED CUP" :=
  (claim4_billboard_association.1 c4data "UNITED CUP" bb1).mpr
    ⟨by decide, p1, by decide, by decide,
      ⟨"06:00:00", rfl, by decide, 21600, by decide,
        "06:05:00", rfl, by decide, 21900, by decide,
        ⟨25200, rfl, by decide, by decide⟩⟩⟩

set_option maxRecDepth 100000 in
/-- Claim C6: the one-line Brisbane log with the UNITED CUP catalog program
produces exactly one Broadcast, with `startTime = 2026-01-03T20:00:00Z`
(06:00 Brisbane local minus the fixed +10:00 offset) and
`endTime = startTime + 2` hours. -/
theorem claim6_end_to_end_bne :
    ((processFile c6programs (parseLogs c6content "BNE") 0 "BNE" "CH9" "k1"
        emptyDB).1.broadcasts.map (fun b => (b.startTime, b.endTime))) =
      [(dateUTCMillis 2026 1 3 20 0 0, dateUTCMillis 2026 1 3 20 0 0 + 2 * 3600000)] := by
  decide

/-! ## C7: degraded timestamp handling (corrected) -/

/-- A line whose timestamp field passes the structural checks but has a
non-numeric date part. -/
def c7badContent : String := sampleLine "ABCDEFGH 06:00:00:00" "M" "SOMETHING"

/-- A line whose timestamp field fails the structural checks (no space). -/
def c7okContent : String := sampleLine "AAAAAAAAAAAAAAAAAAAA" "M" "SOMETHING"

set_option maxRecDepth 100000 in
/-- Counterexample to C7 as stated: the kept line whose timestamp field
`"ABCDEFGH 06:00:00:00"` fails to parse as `YYYYMMDD HH:MM:SS:FF` (the date
part is not numeric, so the UTC conversion yields null) nevertheless gets
non-null `localDateTime` and `time` — the claim says all three fields are
null. -/
theorem claim7_counterexample :
    ((parseLogs c7badContent "SYD").allEntries.headD dfltEntry).dateTime = none ∧
    ((parseLogs c7badContent "SYD").allEntries.headD dfltEntry).localDateTime =
      some "ABCD-EF-GHT06:00:00" ∧
    ((parseLogs c7badContent "SYD").allEntries.headD dfltEntry).time = some "06:00:00" := by
  decide

/-- Claim C7 (amended): every kept line (non-blank, at least 360 characters)
yields exactly one entry, kept in line order in all three output lists (a
malformed line never aborts decoding); `localDateTime` and `time` are null
together and a non-null `dateTime` implies a non-null `time`; and when the
timestamp field fails the parser's structural checks all three fields are
null.  (When the structure parses but a component is non-numeric, only
`dateTime` is null — see the counterexample.) -/
theorem claim7_degraded_entries (content region : String) :
    (((parseLogs content region).allEntries.map (fun e => e.lineNumber)).Pairwise (· < ·) ∧
     ((parseLogs content region).billboards.map (fun e => e.lineNumber)).Pairwise (· < ·) ∧
     ((parseLogs content region).programs.map (fun e => e.lineNumber)).Pairwise (· < ·)) ∧
    (∀ i, ∀ h : i < (jsSplit content '\n').length,
      jsTrim ((jsSplit content '\n').get ⟨i, h⟩) ≠ "" →
      ¬ strLen ((jsSplit content '\n').get ⟨i, h⟩) < 360 →
      ∃ e ∈ (parseLogs content region).allEntries,
        e.lineNumber = i + 1 ∧
        (e.localDateTime = none ↔ e.time = none) ∧
        (e.dateTime.isSome → e.time.isSome) ∧
        (¬ tsWellFormed (jsTrim (jsSubstring ((jsSplit content '\n').get ⟨i, h⟩) 55 75)) →
          e.dateTime = none ∧ e.localDateTime = none ∧ e.time = none)) := by
  constructor
  · have hap := collect_pairwise region (jsSplit content '\n') 0
    refine ⟨?_, ?_, ?_⟩
    · rw [parseLogs_allEntries, List.pairwise_map]
      exact hap
    · rw [parseLogs_billboards, List.pairwise_map]
      exact hap.filter _
    · rw [parseLogs_programs, List.pairwise_map]
      exact hap.filter _
  · intro i h h1 h2
    have hd := decodeLine_kept (i := i) region h1 h2
    refine ⟨mkEntry i ((jsSplit content '\n').get ⟨i, h⟩) region, ?_, mkEntry_lineNumber _ _ _,
      ?_, ?_, ?_⟩
    · rw [parseLogs_allEntries]
      refine decode_mem_collect region _ 0 i h _ ?_
      rw [Nat.zero_add]
      exact hd
    · rw [mkEntry_localDateTime, mkEntry_time]
      exact (parseTimestampRaw_shape _ region).1
    · rw [mkEntry_dateTime, mkEntry_time]
      exact (parseTimestampRaw_shape _ region).2
    · intro hbad
      rw [mkEntry_dateTime, mkEntry_localDateTime, mkEntry_time,
        parseTimestampRaw_not_wellFormed region hbad]
      exact ⟨rfl, rfl, rfl⟩

set_option maxRecDepth 100000 in
/-- Witness for C7 (amended): the line with the structurally malformed
timestamp field is kept, numbered 1, and fully degraded to null fields. -/
theorem claim7_degraded_entries_witness :
    ∃ e ∈ (parseLogs c7okContent "SYD").allEntries,
      e.lineNumber = 1 ∧ e.dateTime = none ∧ e.localDateTime = none ∧ e.time = none := by
  obtain ⟨e, hmem, hln, hshape1, hshape2, hfail⟩ :=
    (claim7_degraded_entries c7okContent "SYD").2 0 (by decide) (by decide) (by decide)
  obtain ⟨hd, hl, ht⟩ := hfail (by decide)
  exact ⟨e, hmem, hln, hd, hl, ht⟩

/-! ## C8: LogFile creation (corrected) -/

/-- A one-line log whose title matches no catalog program. -/
def c8content : String := sampleLine "20260104 06:00:00:00" "M" "SOMETHING ELSE"

set_option maxRecDepth 100000 in
/-- Counterexample to C8 as stated: a file in a main region whose entries
match no catalog program produces zero broadcasts and — contrary to the claim
— no LogFile reference at all (the handler only tracks days, and hence only
writes LogFile rows, for programs that matched). -/
theorem claim8_counterexample :
    (processFile c6programs (parseLogs c8content "BNE") 0 "BNE" "CH9" "k1"
      emptyDB).1.logFiles = [] ∧
    (processFile c6programs (parseLogs c8content "BNE") 0 "BNE" "CH9" "k1"
      emptyDB).2 = [] := by
  decide

/-- Claim C8 (amended): a LogFile reference is created at most once per file
regardless of how many days or programs the file touched, and never when one
with the file's `s3_key` already exists; but a file none of whose entries
match any catalog program produces zero broadcasts and leaves the store
entirely unchanged — no LogFile reference is created for it. -/
theorem claim8_logfile_idempotence (programs : List Program) (parsed : ParsedLogData)
    (date : Int) (region channel key : String) (db : DB) :
    (processFile programs parsed date region channel key db).1.logFiles.length ≤
      db.logFiles.length + 1 ∧
    ((∃ lf ∈ db.logFiles, lf.s3_key = key) →
      (processFile programs parsed date region channel key db).1.logFiles = db.logFiles) ∧
    ((∀ pr ∈ programs, ∀ e ∈ parsed.programs, matchesKeyword pr.keyword e = false) →
      processFile programs parsed date region channel key db = (db, [])) := by
  have hlf : (programs.foldl (processProgram parsed date region channel)
      (db, [], [])).1.logFiles = db.logFiles :=
    programsFold_logFiles parsed date region channel programs (db, [], [])
  refine ⟨?_, ?_, ?_⟩
  · unfold processFile
    dsimp only
    split
    · split
      · rw [hlf]
        omega
      · split
        · rw [hlf]
          omega
        · simp only [List.length_append, List.length_singleton, hlf]
          omega
    · rw [hlf]
      omega
  · rintro ⟨lf, hmem, hkey⟩
    have hsome : ((programs.foldl (processProgram parsed date region channel)
        (db, [], [])).1.logFiles.find? (fun lf => lf.s3_key == key)).isSome := by
      rw [hlf]
      exact List.find?_isSome.mpr ⟨lf, hmem, by simp [hkey]⟩
    unfold processFile
    dsimp only
    split
    · split
      · exact hlf
      · simp [hsome, hlf]
    · exact hlf
  · intro hnone
    unfold processFile
    dsimp only
    rw [programsFold_noMatch parsed date region channel programs (db, [], []) hnone]
    simp [mainRegions]

set_option maxRecDepth 100000 in
/-- Witness for C8 (amended): the no-match file leaves the empty store
unchanged and creates nothing. -/
theorem claim8_logfile_idempotence_witness :
    processFile c6programs (parseLogs c8content "BNE") 0 "BNE" "CH9" "k1" emptyDB =
      (emptyDB, []) :=
  (claim8_logfile_idempotence c6programs (parseLogs c8content "BNE") 0 "BNE" "CH9" "k1"
    emptyDB).2.2 (by decide)

/-! ## C10: the `string | boolean` quirk of `isBillboard` -/

/-- A type-I line whose (trimmed) title is empty. -/
def c10content : String := sampleLine "AAAAAAAAAAAAAAAAAAAA" "I" ""

/-- Claim C10: every decoded entry has `isBillboard = false` (the boolean)
whenever its material type is not `"I"`; a type-`"I"` entry with an empty
trimmed title instead gets the falsy empty *string* (witnessing the declared
`string | boolean` field type), and such an entry lands in neither
`billboards` nor `programs` — only in `allEntries`. -/
theorem claim10_isbillboard_quirk (content region : String) (e : LogEntry)
    (hmem : e ∈ (parseLogs content region).allEntries) :
    (e.materialType ≠ "I" → e.isBillboard = .bool false) ∧
    (e.materialType = "I" → e.databaseTitle = "" →
      e.isBillboard = .str "" ∧ e ∉ (parseLogs content region).billboards ∧
      e ∉ (parseLogs content region).programs) := by
  rw [parseLogs_allEntries] at hmem
  obtain ⟨j, hj, hd⟩ := collect_mem_decode region _ 0 e hmem
  have hIB : e.isBillboard = mkIsBillboard e.materialType e.databaseTitle := by
    rw [decodeLine_some hd]
    exact mkEntry_isBillboard _ _ _
  constructor
  · intro hne
    rw [hIB]
    exact mkIsBillboard_not_I hne
  · intro hI hT
    have hib : e.isBillboard = .str "" := by
      rw [hIB]
      simp [mkIsBillboard, hI, hT]
    refine ⟨hib, ?_, ?_⟩
    · intro hb
      rw [parseLogs_billboards] at hb
      have hflt := (List.mem_filter.mp hb).2
      rw [hib] at hflt
      simp [StrOrBool.truthy] at hflt
    · intro hp
      rw [parseLogs_programs] at hp
      have hflt := (List.mem_filter.mp hp).2
      simp [hI] at hflt

set_option maxRecDepth 100000 in
/-- Witness for C10: the decoded type-I empty-title line carries the empty
string in `isBillboard` and is classified into neither list. -/
theorem claim10_isbillboard_quirk_witness :
    ((parseLogs c10content "SYD").allEntries.headD dfltEntry).isBillboard = .str "" ∧
    (parseLogs c10content "SYD").allEntries.headD dfltEntry ∉
      (parseLogs c10content "SYD").billboards ∧
    (parseLogs c10content "SYD").allEntries.headD dfltEntry ∉
      (parseLogs c10content "SYD").programs :=
  (claim10_isbillboard_quirk c10content "SYD" _ (by decide)).2 (by decide) (by decide)

end AsRun
